import Mathlib

/-!
Verification of the letter-assembly engine of the Rec-Writer repository.

The TypeScript sources are shallowly embedded:

* `src/services/writingSampleAnalyzer.ts` — the category store
  (`storeAndAppendCategories`, `getCategories`, `clearCategories`,
  `parseAnalysisResponse`, `analyzeSample`);
* `src/services/contentGenerator.ts` — the pattern extractor
  (`extractCommonPatterns`, `areSentencesSimilar`), the template
  categorizer (`categorizeTemplate`, `validateCategory`) and the letter
  assembler (`generateLetter`, `personalizeLetter`).

Conventions of the embedding:

* JavaScript strings are Lean `String`s; `String.prototype.trim` is
  embedded as `jsTrim` (drop whitespace from both ends of the character
  list), and `s.replace(/\s+/g, '_')` as `normalizeOwner`.
* JavaScript numbers appearing in the similarity computation are embedded
  as exact rationals (`ℚ`); the thresholds 0.7, 1.3 and 0.3 become
  7/10, 13/10 and 3/10.
* `Math.random()`-driven index choices are derandomized: the assembler
  takes a stream `rnd : Nat → Nat` of choices reduced modulo the length
  of the list being sampled, exactly covering the reachable indices of
  `Math.floor(Math.random() * n)`.
* The platform primitives `JSON.parse` (on the two response shapes) and
  the model backend are abstracted as explicit function parameters; every
  branch of the repository's own code around them is embedded faithfully.
* Fallible effects (`fetch`/`throw`) are embedded with `Except`; a model
  call is additionally counted so that "makes no model call" is statable.
-/

/-! ## JavaScript string primitives -/

/-- The character class recognized by `String.prototype.trim` / `\s`
(embedded via `Char.isWhitespace`). -/
def isWsChar (c : Char) : Bool := c.isWhitespace

/-- Drop leading whitespace characters (left half of `trim`). -/
def trimLeftL (l : List Char) : List Char := l.dropWhile isWsChar

/-- Drop trailing whitespace characters (right half of `trim`). -/
def trimRightL (l : List Char) : List Char := (l.reverse.dropWhile isWsChar).reverse

/-- Embedding of JavaScript `s.trim()`: remove whitespace from both ends. -/
def jsTrim (s : String) : String := ⟨trimRightL (trimLeftL s.data)⟩

theorem dropWhile_dropWhile (p : α → Bool) (l : List α) :
    (l.dropWhile p).dropWhile p = l.dropWhile p := by
  induction l with
  | nil => rfl
  | cons a l ih =>
    by_cases h : p a
    · simp [List.dropWhile_cons, h, ih]
    · simp [List.dropWhile_cons, h]

theorem dropWhile_eq_self_of_pre {p : α → Bool} {u v : List α}
    (hpre : v <+: u) (hu : u.dropWhile p = u) : v.dropWhile p = v := by
  cases v with
  | nil => rfl
  | cons a v' =>
    obtain ⟨t, ht⟩ := hpre
    subst ht
    by_cases h : p a
    · exfalso
      have hlen : (((a :: v') ++ t).dropWhile p).length ≤ (v' ++ t).length := by
        simp only [List.cons_append, List.dropWhile_cons, h, if_true]
        exact (List.dropWhile_suffix (l := v' ++ t) p).length_le
      rw [hu] at hlen
      simp at hlen
    · simp [List.dropWhile_cons, h]

theorem trimRightL_pre (l : List Char) : trimRightL l <+: l := by
  unfold trimRightL
  have h := List.dropWhile_suffix (p := isWsChar) (l := l.reverse)
  have h2 := List.reverse_prefix.mpr h
  simpa using h2

theorem trimRightL_trimRightL (l : List Char) : trimRightL (trimRightL l) = trimRightL l := by
  unfold trimRightL
  rw [List.reverse_reverse, dropWhile_dropWhile]

/-- `trim` is idempotent. -/
theorem jsTrim_jsTrim (s : String) : jsTrim (jsTrim s) = jsTrim s := by
  unfold jsTrim trimLeftL
  have h1 : (trimRightL (s.data.dropWhile isWsChar)).dropWhile isWsChar
      = trimRightL (s.data.dropWhile isWsChar) :=
    dropWhile_eq_self_of_pre (trimRightL_pre _) (dropWhile_dropWhile _ _)
  simp only [h1]
  rw [trimRightL_trimRightL]

/-! ## The category store (`writingSampleAnalyzer.ts`)

`AnalysisCategories` is the record with the five fixed category slots. -/

structure AnalysisCategories where
  introduction_context : List String
  endorsement : List String
  commentary : List String
  qualities : List String
  further_discussion : List String
deriving DecidableEq, Repr

/-- The constant `{introduction_context: [], ...}` used as the default. -/
def emptyCategories : AnalysisCategories := ⟨[], [], [], [], []⟩

/-- `Object.values(existingCategories)` flattened: all sentences of the
store in category order. -/
def allSentences (c : AnalysisCategories) : List String :=
  c.introduction_context ++ c.endorsement ++ c.commentary ++ c.qualities ++
    c.further_discussion

/-- The inner loop of `storeAndAppendCategories` for one category:
for each new sentence take its trimmed text; if it is not in the
membership set `seen`, push it onto the category and record it in `seen`.
Returns the updated category array and membership set. -/
def appendCat (seen : List String) (dst : List String) :
    List String → List String × List String
  | [] => (dst, seen)
  | s :: rest =>
    let t := jsTrim s
    if t ∈ seen then appendCat seen dst rest
    else appendCat (t :: seen) (dst ++ [t]) rest

/-- Embedding of `WritingSampleAnalyzer.storeAndAppendCategories`
(src/unnamed/part_004, lines 162–258), restricted to its pure
store-transformation: build the set of all existing sentence texts
(trimmed) across the five categories, then append each new sentence to
its category only if its trimmed text is not already present, updating
the set as it goes.  Categories are visited in the fixed key order of
the `AnalysisCategories` record, as `Object.entries` does. -/
def storeAndAppendCategories (existing newC : AnalysisCategories) :
    AnalysisCategories :=
  let seen0 := (allSentences existing).map jsTrim
  let r1 := appendCat seen0 existing.introduction_context newC.introduction_context
  let r2 := appendCat r1.2 existing.endorsement newC.endorsement
  let r3 := appendCat r2.2 existing.commentary newC.commentary
  let r4 := appendCat r3.2 existing.qualities newC.qualities
  let r5 := appendCat r4.2 existing.further_discussion newC.further_discussion
  ⟨r1.1, r2.1, r3.1, r4.1, r5.1⟩

theorem appendCat_seen_mono {seen dst : List String} {news : List String} {x : String}
    (hx : x ∈ seen) : x ∈ (appendCat seen dst news).2 := by
  induction news generalizing seen dst with
  | nil => simpa [appendCat] using hx
  | cons s rest ih =>
    by_cases h : jsTrim s ∈ seen
    · simpa [appendCat, h] using ih hx
    · simp only [appendCat, h, if_false]
      exact ih (List.mem_cons_of_mem _ hx)

theorem appendCat_new_in_seen {seen dst : List String} {news : List String} {s : String}
    (hs : s ∈ news) : jsTrim s ∈ (appendCat seen dst news).2 := by
  induction news generalizing seen dst with
  | nil => cases hs
  | cons a rest ih =>
    rcases List.mem_cons.mp hs with rfl | hmem
    · by_cases h : jsTrim s ∈ seen
      · simpa [appendCat, h] using appendCat_seen_mono h
      · simp only [appendCat, h, if_false]
        exact appendCat_seen_mono (List.mem_cons_self _ _)
    · by_cases h : jsTrim a ∈ seen
      · simpa [appendCat, h] using ih hmem
      · simp only [appendCat, h, if_false]
        exact ih hmem

theorem appendCat_dst_extend (seen dst : List String) (news : List String) :
    ∃ add, (appendCat seen dst news).1 = dst ++ add := by
  induction news generalizing seen dst with
  | nil => exact ⟨[], by simp [appendCat]⟩
  | cons s rest ih =>
    by_cases h : jsTrim s ∈ seen
    · simpa [appendCat, h] using ih seen dst
    · simp only [appendCat, h, if_false]
      obtain ⟨add, hadd⟩ := ih (jsTrim s :: seen) (dst ++ [jsTrim s])
      exact ⟨jsTrim s :: add, by simpa using hadd⟩

theorem appendCat_seen_spec {seen dst : List String} {news : List String} {t : String}
    (ht : t ∈ (appendCat seen dst news).2) :
    t ∈ seen ∨ (t ∈ (appendCat seen dst news).1 ∧ jsTrim t = t) := by
  induction news generalizing seen dst with
  | nil => exact Or.inl (by simpa [appendCat] using ht)
  | cons s rest ih =>
    by_cases h : jsTrim s ∈ seen
    · simp only [appendCat, h, if_true] at ht ⊢
      exact ih ht
    · simp only [appendCat, h, if_false] at ht ⊢
      rcases ih ht with hseen | hdst
      · rcases List.mem_cons.mp hseen with rfl | hmem
        · right
          constructor
          · obtain ⟨add, hadd⟩ := appendCat_dst_extend (jsTrim s :: seen) (dst ++ [jsTrim s]) rest
            rw [hadd]
            simp
          · exact jsTrim_jsTrim s
        · exact Or.inl hmem
      · exact Or.inr hdst

theorem appendCat_noop {seen dst : List String} {news : List String}
    (h : ∀ s ∈ news, jsTrim s ∈ seen) : appendCat seen dst news = (dst, seen) := by
  induction news with
  | nil => rfl
  | cons s rest ih =>
    have hs : jsTrim s ∈ seen := h s (List.mem_cons_self _ _)
    simp only [appendCat, hs, if_true]
    exact ih fun x hx => h x (List.mem_cons_of_mem _ hx)

theorem mem_allSentences_mk {x : String} {a b c d e : List String}
    (h : x ∈ a ∨ x ∈ b ∨ x ∈ c ∨ x ∈ d ∨ x ∈ e) :
    x ∈ allSentences ⟨a, b, c, d, e⟩ := by
  simp only [allSentences, List.mem_append]
  tauto

/-- C1: merging the same `AnalysisCategories` value into a store twice
yields the same store as merging it once — after the first merge every
appended sentence is recorded (trimmed) in the membership set, so the
second merge of the identical value appends nothing to any of the five
categories. -/
theorem merge_idempotent (E C : AnalysisCategories) :
    storeAndAppendCategories (storeAndAppendCategories E C) C =
      storeAndAppendCategories E C := by
  set seen0 := (allSentences E).map jsTrim with hseen0
  set r1 := appendCat seen0 E.introduction_context C.introduction_context with hr1
  set r2 := appendCat r1.2 E.endorsement C.endorsement with hr2
  set r3 := appendCat r2.2 E.commentary C.commentary with hr3
  set r4 := appendCat r3.2 E.qualities C.qualities with hr4
  set r5 := appendCat r4.2 E.further_discussion C.further_discussion with hr5
  have hM : storeAndAppendCategories E C = ⟨r1.1, r2.1, r3.1, r4.1, r5.1⟩ := rfl
  -- every trimmed sentence of `C` reaches the final membership set `r5.2`
  have hC1 : ∀ s ∈ C.introduction_context, jsTrim s ∈ r5.2 := fun s hs =>
    appendCat_seen_mono (appendCat_seen_mono (appendCat_seen_mono
      (appendCat_seen_mono (appendCat_new_in_seen hs))))
  have hC2 : ∀ s ∈ C.endorsement, jsTrim s ∈ r5.2 := fun s hs =>
    appendCat_seen_mono (appendCat_seen_mono (appendCat_seen_mono
      (appendCat_new_in_seen hs)))
  have hC3 : ∀ s ∈ C.commentary, jsTrim s ∈ r5.2 := fun s hs =>
    appendCat_seen_mono (appendCat_seen_mono (appendCat_new_in_seen hs))
  have hC4 : ∀ s ∈ C.qualities, jsTrim s ∈ r5.2 := fun s hs =>
    appendCat_seen_mono (appendCat_new_in_seen hs)
  have hC5 : ∀ s ∈ C.further_discussion, jsTrim s ∈ r5.2 := fun s hs =>
    appendCat_new_in_seen hs
  -- the final membership set is contained in the trim-image of the merged store
  have hspec : ∀ t ∈ r5.2, t ∈ (allSentences (⟨r1.1, r2.1, r3.1, r4.1, r5.1⟩ :
      AnalysisCategories)).map jsTrim := by
    intro t ht
    have fix_case : ∀ {u : String}, (u ∈ r1.1 ∨ u ∈ r2.1 ∨ u ∈ r3.1 ∨ u ∈ r4.1 ∨ u ∈ r5.1) →
        jsTrim u = u →
        t = u → t ∈ (allSentences (⟨r1.1, r2.1, r3.1, r4.1, r5.1⟩ :
          AnalysisCategories)).map jsTrim := by
      intro u hu hfix heq
      subst heq
      exact List.mem_map.mpr ⟨t, mem_allSentences_mk hu, hfix⟩
    rcases appendCat_seen_spec ht with h4 | ⟨hd, hf⟩
    rotate_left
    · exact fix_case (Or.inr (Or.inr (Or.inr (Or.inr hd)))) hf rfl
    rcases appendCat_seen_spec h4 with h3 | ⟨hd, hf⟩
    rotate_left
    · exact fix_case (Or.inr (Or.inr (Or.inr (Or.inl hd)))) hf rfl
    rcases appendCat_seen_spec h3 with h2 | ⟨hd, hf⟩
    rotate_left
    · exact fix_case (Or.inr (Or.inr (Or.inl hd))) hf rfl
    rcases appendCat_seen_spec h2 with h1 | ⟨hd, hf⟩
    rotate_left
    · exact fix_case (Or.inr (Or.inl hd)) hf rfl
    rcases appendCat_seen_spec h1 with h0 | ⟨hd, hf⟩
    rotate_left
    · exact fix_case (Or.inl hd) hf rfl
    -- `t` came from the original store: each category only grows
    rw [hseen0] at h0
    obtain ⟨e, he, rfl⟩ := List.mem_map.mp h0
    have hgrow : e ∈ allSentences (⟨r1.1, r2.1, r3.1, r4.1, r5.1⟩ :
        AnalysisCategories) := by
      have g1 := appendCat_dst_extend seen0 E.introduction_context C.introduction_context
      have g2 := appendCat_dst_extend r1.2 E.endorsement C.endorsement
      have g3 := appendCat_dst_extend r2.2 E.commentary C.commentary
      have g4 := appendCat_dst_extend r3.2 E.qualities C.qualities
      have g5 := appendCat_dst_extend r4.2 E.further_discussion C.further_discussion
      obtain ⟨a1, ha1⟩ := g1
      obtain ⟨a2, ha2⟩ := g2
      obtain ⟨a3, ha3⟩ := g3
      obtain ⟨a4, ha4⟩ := g4
      obtain ⟨a5, ha5⟩ := g5
      apply mem_allSentences_mk
      have hsplit : e ∈ E.introduction_context ∨ e ∈ E.endorsement ∨ e ∈ E.commentary ∨
          e ∈ E.qualities ∨ e ∈ E.further_discussion := by
        simp only [allSentences, List.mem_append] at he
        tauto
      rw [← hr1] at ha1
      rw [← hr2] at ha2
      rw [← hr3] at ha3
      rw [← hr4] at ha4
      rw [← hr5] at ha5
      rcases hsplit with h | h | h | h | h
      · exact Or.inl (by rw [ha1]; exact List.mem_append_left _ h)
      · exact Or.inr (Or.inl (by rw [ha2]; exact List.mem_append_left _ h))
      · exact Or.inr (Or.inr (Or.inl (by rw [ha3]; exact List.mem_append_left _ h)))
      · exact Or.inr (Or.inr (Or.inr (Or.inl (by rw [ha4]; exact List.mem_append_left _ h))))
      · exact Or.inr (Or.inr (Or.inr (Or.inr (by rw [ha5]; exact List.mem_append_left _ h))))
    exact List.mem_map.mpr ⟨e, hgrow, rfl⟩
  -- the second merge is therefore a no-op in each category
  rw [hM]
  set S0 := (allSentences (⟨r1.1, r2.1, r3.1, r4.1, r5.1⟩ :
    AnalysisCategories)).map jsTrim with hS0
  have hAll : ∀ s, (s ∈ C.introduction_context ∨ s ∈ C.endorsement ∨ s ∈ C.commentary ∨
      s ∈ C.qualities ∨ s ∈ C.further_discussion) → jsTrim s ∈ S0 := by
    intro s hs
    rcases hs with h | h | h | h | h
    · exact hspec _ (hC1 s h)
    · exact hspec _ (hC2 s h)
    · exact hspec _ (hC3 s h)
    · exact hspec _ (hC4 s h)
    · exact hspec _ (hC5 s h)
  have e1 : appendCat S0 r1.1 C.introduction_context = (r1.1, S0) :=
    appendCat_noop fun s hs => hAll s (Or.inl hs)
  have e2 : appendCat (appendCat S0 r1.1 C.introduction_context).2 r2.1 C.endorsement
      = (r2.1, S0) := by
    rw [e1]; exact appendCat_noop fun s hs => hAll s (Or.inr (Or.inl hs))
  have e3 : appendCat (appendCat (appendCat S0 r1.1 C.introduction_context).2 r2.1
      C.endorsement).2 r3.1 C.commentary = (r3.1, S0) := by
    rw [e2]; exact appendCat_noop fun s hs => hAll s (Or.inr (Or.inr (Or.inl hs)))
  have e4 : appendCat (appendCat (appendCat (appendCat S0 r1.1 C.introduction_context).2
      r2.1 C.endorsement).2 r3.1 C.commentary).2 r4.1 C.qualities = (r4.1, S0) := by
    rw [e3]; exact appendCat_noop fun s hs => hAll s (Or.inr (Or.inr (Or.inr (Or.inl hs))))
  have e5 : appendCat (appendCat (appendCat (appendCat (appendCat S0 r1.1
      C.introduction_context).2 r2.1 C.endorsement).2 r3.1 C.commentary).2 r4.1
      C.qualities).2 r5.1 C.further_discussion = (r5.1, S0) := by
    rw [e4]; exact appendCat_noop fun s hs => hAll s (Or.inr (Or.inr (Or.inr (Or.inr hs))))
  show (⟨(appendCat S0 r1.1 C.introduction_context).1,
      (appendCat (appendCat S0 r1.1 C.introduction_context).2 r2.1 C.endorsement).1,
      (appendCat (appendCat (appendCat S0 r1.1 C.introduction_context).2 r2.1
        C.endorsement).2 r3.1 C.commentary).1,
      (appendCat (appendCat (appendCat (appendCat S0 r1.1 C.introduction_context).2
        r2.1 C.endorsement).2 r3.1 C.commentary).2 r4.1 C.qualities).1,
      (appendCat (appendCat (appendCat (appendCat (appendCat S0 r1.1
        C.introduction_context).2 r2.1 C.endorsement).2 r3.1 C.commentary).2 r4.1
        C.qualities).2 r5.1 C.further_discussion).1⟩ : AnalysisCategories)
      = ⟨r1.1, r2.1, r3.1, r4.1, r5.1⟩
  rw [e5, e4, e3, e2, e1]

/-! ## Sentence splitting (`content.match(/[^.!?]+[.!?]+/g)`)

A match of the regex is a nonempty run of non-terminator characters
followed by a nonempty run of terminators; the global scan yields
successive non-overlapping matches left to right (runs of terminators
between matches are skipped, and a trailing terminator-less run yields
no further match).  The recursion is fuelled by the length of the input,
which bounds the number of matches. -/

/-- The sentence-terminator class `[.!?]`. -/
def isTerminator (c : Char) : Bool := c == '.' || c == '!' || c == '?'

def matchSentencesAux : Nat → List Char → List String
  | 0, _ => []
  | fuel + 1, l =>
    let l1 := l.dropWhile isTerminator
    let a := l1.takeWhile (fun c => !isTerminator c)
    let r1 := l1.dropWhile (fun c => !isTerminator c)
    let b := r1.takeWhile isTerminator
    let r2 := r1.dropWhile isTerminator
    if a.isEmpty || b.isEmpty then []
    else (⟨a ++ b⟩ : String) :: matchSentencesAux fuel r2

/-- Embedding of `s.match(/[^.!?]+[.!?]+/g) || []` as a list of raw
(untrimmed) matches. -/
def matchSentences (s : String) : List String :=
  matchSentencesAux s.data.length s.data

/-! ## Word tokenizer and similarity test
(`ContentGenerator.areSentencesSimilar`, contentGenerator.ts 171–244) -/

/-- The punctuation class `[.,?!;:()"']` stripped before tokenizing
(the quote and apostrophe are written by code point). -/
def punctChars : List Char :=
  ['.', ',', '?', '!', ';', ':', '(', ')', Char.ofNat 34, Char.ofNat 39]

/-- Embedding of `s.toLowerCase()` (per-character lowering). -/
def lowerStr (s : String) : String := ⟨s.data.map Char.toLower⟩

/-- Embedding of `tokenizeSentence`: lowercase, strip punctuation, split
on whitespace, keep only words longer than 3 characters.  (`splitOnP`
can emit empty chunks where `split(/\s+/)` merges separator runs; the
`length > 3` filter removes them in both semantics, so the resulting
token lists coincide.) -/
def tokenizeSentence (s : String) : List String :=
  ((((s.data.map Char.toLower).filter (fun c => !punctChars.contains c)).splitOnP
      isWsChar).map (fun l => (⟨l⟩ : String))).filter (fun w => w.length > 3)

/-- One step of the `uniqueWords[word] = true` loop: record a word as an
object key if it is not one already. -/
def insertKey (ks : List String) (w : String) : List String :=
  if ks.contains w then ks else ks ++ [w]

/-- `Object.keys` of the object built by iterating over a word list. -/
def objectKeys (ws : List String) : List String := ws.foldl insertKey []

/-- One pair's similarity: `intersection.length / unionSize` (0 when the
union is empty), intersection computed by `filter`/`indexOf` on arrays
(so duplicates in the first array are counted), union by object keys. -/
def jaccardSim (a b : List String) : ℚ :=
  let inter := a.filter (fun w => b.contains w)
  let unionSize := (objectKeys (a ++ b)).length
  if unionSize > 0 then (inter.length : ℚ) / (unionSize : ℚ) else 0

/-- The double loop `for i, for j > i`: similarities of all ordered pairs. -/
def jaccardPairs : List (List String) → List ℚ
  | [] => []
  | w :: rest => rest.map (fun w2 => jaccardSim w w2) ++ jaccardPairs rest

/-- `totalSimilarity / pairCount` (0 when there are no pairs). -/
def avgSimilarityOf (ws : List (List String)) : ℚ :=
  let ps := jaccardPairs ws
  if ps.length > 0 then ps.foldl (· + ·) 0 / (ps.length : ℚ) else 0

/-- Substring test: does `needle` occur in `hay` (JS `indexOf !== -1`). -/
def containsSubL (needle : List Char) : List Char → Bool
  | [] => needle.isEmpty
  | c :: t => needle.isPrefixOf (c :: t) || containsSubL needle t

def containsSub (hay needle : String) : Bool := containsSubL needle.data hay.data

def openingPhrases : List String :=
  ["i am writing", "it is with", "i am pleased", "i am delighted",
   "i am happy", "i have known", "this letter", "to whom"]

def closingPhrases : List String :=
  ["if you have", "please feel", "please do not", "i would be",
   "i can be", "i am available", "sincerely", "do not hesitate",
   "i highly recommend", "i recommend", "i endorse", "without reservation"]

/-- `isOpeningOrClosing`: some (length-filtered) sentence contains a
known opening or closing phrase. -/
def phraseHit (ss : List String) : Bool :=
  ss.any (fun s =>
    openingPhrases.any (fun p => containsSub (lowerStr s) p) ||
    closingPhrases.any (fun p => containsSub (lowerStr s) p))

/-- Mean sentence length (exact rational). -/
def avgLengthOf (ss : List String) : ℚ :=
  ((ss.map (fun s => (s.length : ℚ))).foldl (· + ·) 0) / ((ss.length : ℚ))

/-- The length filter `lenRatio >= 0.7 && lenRatio <= 1.3`. -/
def lengthPasses (avg : ℚ) (s : String) : Bool :=
  decide ((s.length : ℚ) / avg ≥ 7/10) && decide ((s.length : ℚ) / avg ≤ 13/10)

/-- Embedding of `ContentGenerator.areSentencesSimilar`
(contentGenerator.ts, lines 171–244).  JavaScript's floating-point
thresholds are embedded as exact rationals.  (When `avg = 0` every
sentence is empty and the `some(s => !s)` guard has already returned
`false`, so the total rational division never diverges from the
`NaN`-propagating float semantics on reachable inputs.) -/
def areSentencesSimilar (sentences : List String) : Bool :=
  if sentences.length < 2 then true
  else if sentences.any (fun s => s == "") then false
  else
    let avg := avgLengthOf sentences
    let filtered := sentences.filter (lengthPasses avg)
    if decide ((filtered.length : ℚ) < (sentences.length : ℚ) * (7/10)) then false
    else
      decide (avgSimilarityOf (filtered.map tokenizeSentence) ≥ 3/10) ||
        phraseHit filtered

/-! ## Pattern extraction (`ContentGenerator.extractCommonPatterns`,
contentGenerator.ts, lines 80–165) -/

/-- The first loop over samples: skip empty contents, collect each
sample's trimmed sentence list, and track
`maxOpeningPatternLength` (`=== 0 ? floor(n/2) : min(curr, floor(n/2))`). -/
def buildSamplesState (samples : List String) : List (List String) × Nat :=
  samples.foldl
    (fun acc content =>
      if content == "" then acc
      else
        let sentences := matchSentences content
        if sentences.length > 0 then
          (acc.1 ++ [sentences.map jsTrim],
            if acc.2 == 0 then sentences.length / 2
            else min acc.2 (sentences.length / 2))
        else acc)
    ([], 0)

/-- The opening scan: for each position while similar, push the first
sample's sentence; stop at the first dissimilar position.  `rem` counts
the positions left before `maxOpeningPatternLength`.  An out-of-range
index (JS `undefined`) is embedded as `""`: both are falsy and the
similarity test consults the value only through that falsy guard before
any other use. -/
def sentencesAt (sss : List (List String)) (pos : Nat) : List String :=
  sss.map (fun sentences => sentences.getD pos "")

/-- `sentences[sentences.length - posFromEnd]`, index computed in `Int`
so a negative index is `undefined` (embedded `""`) as in the source. -/
def sentencesAtEnd (sss : List (List String)) (posFromEnd : Nat) : List String :=
  sss.map (fun sentences =>
    if ((sentences.length : Int) - (posFromEnd : Int)) < 0 then ""
    else sentences.getD ((sentences.length : Int) - (posFromEnd : Int)).toNat "")

def openingScanAux (sss : List (List String)) : Nat → Nat → List String
  | _, 0 => []
  | pos, rem + 1 =>
    if areSentencesSimilar (sentencesAt sss pos) then
      (sentencesAt sss pos).headD "" :: openingScanAux sss (pos + 1) rem
    else []

/-- The closing scan, walking positions from the end and prepending
(`unshift`) to keep chronological order; the JS index
`sentences.length - posFromEnd` is computed in `Int` so a negative
index is `undefined` (embedded `""`) exactly as in the source. -/
def closingScanAux (sss : List (List String)) : Nat → Nat → List String
  | _, 0 => []
  | posFromEnd, rem + 1 =>
    if areSentencesSimilar (sentencesAtEnd sss posFromEnd) then
      closingScanAux sss (posFromEnd + 1) rem ++ [(sentencesAtEnd sss posFromEnd).headD ""]
    else []

/-- Embedding of `ContentGenerator.extractCommonPatterns`: the samples
are given as their `content` strings (in storage order). -/
def extractCommonPatterns (samples : List String) : List String × List String :=
  if samples.length < 2 then
    (if samples.length == 1 && !(samples.headD "" == "") then
        [(((matchSentences (samples.headD "")).head?).map jsTrim).getD ""]
      else [],
      if samples.length == 1 && !(samples.headD "" == "") then
        [(((matchSentences (samples.headD "")).getLast?).map jsTrim).getD ""]
      else [])
  else if (buildSamplesState samples).1.length < 2 then ([], [])
  else
    (openingScanAux (buildSamplesState samples).1 0 (buildSamplesState samples).2,
      closingScanAux (buildSamplesState samples).1 1 (buildSamplesState samples).2)


/-! ### Facts about the similarity test -/

theorem contains_true_iff {α : Type} [BEq α] [LawfulBEq α] (l : List α) (a : α) :
    l.contains a = true ↔ a ∈ l := List.elem_iff

theorem length_ne_zero_of_ne_empty {s : String} (h : s ≠ "") : s.length ≠ 0 := by
  intro h0
  apply h
  apply String.ext
  have hd : s.data.length = 0 := h0
  simpa using List.length_eq_zero.mp hd

theorem avgLengthOf_pair_self (s : String) : avgLengthOf [s, s] = (s.length : ℚ) := by
  unfold avgLengthOf
  simp only [List.map_cons, List.map_nil, List.foldl_cons, List.foldl_nil,
    List.length_cons, List.length_nil]
  rw [div_eq_iff (by norm_num)]
  push_cast
  ring

theorem lengthPasses_self {s : String} (h : s.length ≠ 0) :
    lengthPasses (avgLengthOf [s, s]) s = true := by
  rw [avgLengthOf_pair_self]
  unfold lengthPasses
  have h1 : (s.length : ℚ) / (s.length : ℚ) = 1 := by
    rw [div_self]
    exact_mod_cast h
  rw [h1]
  norm_num

theorem filter_pair_self {s : String} (h : s.length ≠ 0) :
    [s, s].filter (lengthPasses (avgLengthOf [s, s])) = [s, s] := by
  simp [List.filter, lengthPasses_self h]

theorem insertKey_contains_mono {ks : List String} {w : String}
    (h : ks.contains w = true) (a : String) : (insertKey ks a).contains w = true := by
  unfold insertKey
  by_cases ha : ks.contains a
  · rw [if_pos ha]; exact h
  · rw [if_neg ha]
    rw [contains_true_iff] at h ⊢
    exact List.mem_append_left _ h

theorem foldl_insertKey_grow (t : List String) :
    ∀ ks w, ks.contains w = true → (t.foldl insertKey ks).contains w = true := by
  induction t with
  | nil => intro ks w h; exact h
  | cons a t ih =>
    intro ks w h
    simp only [List.foldl_cons]
    exact ih _ w (insertKey_contains_mono h a)

theorem foldl_insertKey_mem (t : List String) :
    ∀ ks, ∀ w ∈ t, (t.foldl insertKey ks).contains w = true := by
  induction t with
  | nil => intro ks w h; cases h
  | cons a t ih =>
    intro ks w h
    rcases List.mem_cons.mp h with rfl | hmem
    · simp only [List.foldl_cons]
      apply foldl_insertKey_grow
      unfold insertKey
      by_cases ha : ks.contains w
      · rw [if_pos ha]; exact ha
      · rw [if_neg ha]
        rw [contains_true_iff]
        simp
    · simp only [List.foldl_cons]
      exact ih _ w hmem

theorem foldl_insertKey_noop (t : List String) :
    ∀ ks, (∀ w ∈ t, ks.contains w = true) → t.foldl insertKey ks = ks := by
  induction t with
  | nil => intro ks _; rfl
  | cons a t ih =>
    intro ks h
    simp only [List.foldl_cons]
    rw [show insertKey ks a = ks from by
      unfold insertKey
      rw [if_pos (h a (List.mem_cons_self _ _))]]
    exact ih ks fun w hw => h w (List.mem_cons_of_mem _ hw)

theorem foldl_insertKey_len (t : List String) :
    ∀ ks, (t.foldl insertKey ks).length ≤ ks.length + t.length := by
  induction t with
  | nil => intro ks; simp
  | cons a t ih =>
    intro ks
    simp only [List.foldl_cons]
    have h1 := ih (insertKey ks a)
    have h2 : (insertKey ks a).length ≤ ks.length + 1 := by
      unfold insertKey
      by_cases ha : ks.contains a
      · rw [if_pos ha]; omega
      · rw [if_neg ha]; simp
    simp only [List.length_cons]
    omega

theorem objectKeys_append_self (t : List String) : objectKeys (t ++ t) = objectKeys t := by
  unfold objectKeys
  rw [List.foldl_append]
  exact foldl_insertKey_noop t _ fun w hw => foldl_insertKey_mem t [] w hw

theorem objectKeys_length_le (t : List String) : (objectKeys t).length ≤ t.length := by
  have := foldl_insertKey_len t []
  simpa [objectKeys] using this

theorem objectKeys_pos {t : List String} (h : t ≠ []) : 0 < (objectKeys t).length := by
  rcases List.exists_mem_of_ne_nil t h with ⟨w, hw⟩
  have hc := foldl_insertKey_mem t [] w hw
  unfold objectKeys
  cases hOK : t.foldl insertKey [] with
  | nil => rw [hOK] at hc; simp at hc
  | cons x xs => simp

/-- An array's Jaccard similarity with itself is at least 1 (it can
exceed 1 when the array has duplicates, since the intersection is
computed on arrays and the union on distinct keys). -/
theorem jaccardSim_self {t : List String} (h : t ≠ []) : 1 ≤ jaccardSim t t := by
  unfold jaccardSim
  have hinter : t.filter (fun w => t.contains w) = t := by
    apply List.filter_eq_self.mpr
    intro a ha
    exact (contains_true_iff t a).mpr ha
  have hKlen : (objectKeys (t ++ t)).length ≤ t.length := by
    rw [objectKeys_append_self]
    exact objectKeys_length_le t
  have hKpos : 0 < (objectKeys (t ++ t)).length := by
    rw [objectKeys_append_self]
    exact objectKeys_pos h
  rw [hinter]
  rw [if_pos hKpos]
  rw [le_div_iff₀ (by exact_mod_cast hKpos)]
  simpa using (Nat.cast_le (α := ℚ)).mpr hKlen

/-- Two copies of a sentence with at least one token longer than
3 characters are judged similar: the word arrays are identical and
nonempty, so the single pair similarity is at least 1 ≥ 0.3. -/
theorem sim_self_with_tokens {s : String} (htok : tokenizeSentence s ≠ []) :
    areSentencesSimilar [s, s] = true := by
  have hne : s ≠ "" := by
    intro h
    subst h
    exact htok (by decide)
  have hlen := length_ne_zero_of_ne_empty hne
  unfold areSentencesSimilar
  simp only [List.length_cons, List.length_nil]
  rw [if_neg (by omega)]
  rw [if_neg (by simp [hne])]
  rw [filter_pair_self hlen]
  rw [if_neg (by push_cast; norm_num)]
  have hpairs : jaccardPairs ([s, s].map tokenizeSentence)
      = [jaccardSim (tokenizeSentence s) (tokenizeSentence s)] := by
    simp [jaccardPairs]
  have havgsim : avgSimilarityOf ([s, s].map tokenizeSentence) ≥ 3/10 := by
    unfold avgSimilarityOf
    rw [hpairs]
    simp only [List.length_cons, List.length_nil, List.foldl_cons, List.foldl_nil]
    rw [if_pos (by norm_num)]
    have h1 : ((0 : ℚ) + jaccardSim (tokenizeSentence s) (tokenizeSentence s)) / ((1 : Nat) : ℚ)
        = jaccardSim (tokenizeSentence s) (tokenizeSentence s) := by
      push_cast
      ring
    rw [h1]
    have := jaccardSim_self htok
    linarith
  rw [decide_eq_true havgsim]
  simp

/-- Two copies of a sentence with no token longer than 3 characters are
judged *dissimilar* unless a lexicon phrase fires: the word arrays are
empty, the union is empty, and the pair similarity is defined to be 0. -/
theorem sim_self_no_tokens {s : String} (hne : s ≠ "")
    (htok : tokenizeSentence s = []) (hph : phraseHit [s, s] = false) :
    areSentencesSimilar [s, s] = false := by
  have hlen := length_ne_zero_of_ne_empty hne
  unfold areSentencesSimilar
  simp only [List.length_cons, List.length_nil]
  rw [if_neg (by omega)]
  rw [if_neg (by simp [hne])]
  rw [filter_pair_self hlen]
  rw [if_neg (by push_cast; norm_num)]
  have hpair0 : jaccardSim (tokenizeSentence s) (tokenizeSentence s) = 0 := by
    rw [htok]
    unfold jaccardSim
    simp [objectKeys]
  have hpairs : jaccardPairs ([s, s].map tokenizeSentence)
      = [jaccardSim (tokenizeSentence s) (tokenizeSentence s)] := by
    simp [jaccardPairs]
  have havgsim : avgSimilarityOf ([s, s].map tokenizeSentence) = 0 := by
    unfold avgSimilarityOf
    rw [hpairs]
    simp only [List.length_cons, List.length_nil, List.foldl_cons, List.foldl_nil]
    rw [if_pos (by norm_num)]
    rw [hpair0]
    norm_num
  have hdec : decide (avgSimilarityOf ([s, s].map tokenizeSentence) ≥ 3/10) = false := by
    rw [havgsim]
    simp only [decide_eq_false_iff_not]
    norm_num
  rw [hdec, hph]
  rfl

/-! ### Behaviour of the scans on two identical samples -/

theorem sentencesAt_pair (ts : List String) (pos : Nat) :
    sentencesAt [ts, ts] pos = [ts.getD pos "", ts.getD pos ""] := rfl

theorem getD_in_range {ts : List String} {pos : Nat} (h : pos < ts.length) :
    ts.getD pos "" = ts[pos] := by
  simp [List.getD_eq_getElem?_getD, List.getElem?_eq_getElem h]

theorem openingScanAux_pair {ts : List String}
    (hsim : ∀ s ∈ ts, tokenizeSentence s ≠ []) :
    ∀ rem pos, pos + rem ≤ ts.length →
      openingScanAux [ts, ts] pos rem = (ts.drop pos).take rem := by
  intro rem
  induction rem with
  | zero => intro pos _; simp [openingScanAux]
  | succ rem ih =>
    intro pos hle
    have hpos : pos < ts.length := by omega
    have hx : ts.getD pos "" = ts[pos] := getD_in_range hpos
    have hmem : ts[pos] ∈ ts := List.getElem_mem hpos
    have hsimx : areSentencesSimilar (sentencesAt [ts, ts] pos) = true := by
      rw [sentencesAt_pair, hx]
      exact sim_self_with_tokens (hsim _ hmem)
    unfold openingScanAux
    rw [hsimx]
    simp only [if_true]
    rw [ih (pos + 1) (by omega)]
    rw [sentencesAt_pair, hx]
    rw [List.drop_eq_getElem_cons hpos]
    rfl

theorem sentencesAtEnd_pair (ts : List String) {posFromEnd : Nat}
    (_h1 : 1 ≤ posFromEnd) (h2 : posFromEnd ≤ ts.length) :
    sentencesAtEnd [ts, ts] posFromEnd
      = [ts.getD (ts.length - posFromEnd) "", ts.getD (ts.length - posFromEnd) ""] := by
  unfold sentencesAtEnd
  have hnn : ¬ ((ts.length : Int) - (posFromEnd : Int) < 0) := by
    omega
  have htn : ((ts.length : Int) - (posFromEnd : Int)).toNat = ts.length - posFromEnd := by
    omega
  simp only [List.map_cons, List.map_nil, if_neg hnn, htn]

theorem closingScanAux_pair {ts : List String}
    (hsim : ∀ s ∈ ts, tokenizeSentence s ≠ []) :
    ∀ rem posFromEnd, 1 ≤ posFromEnd → posFromEnd + rem ≤ ts.length + 1 →
      closingScanAux [ts, ts] posFromEnd rem
        = (ts.drop (ts.length + 1 - posFromEnd - rem)).take rem := by
  intro rem
  induction rem with
  | zero => intro posFromEnd _ _; simp [closingScanAux]
  | succ rem ih =>
    intro posFromEnd hge hle
    have hpe : posFromEnd ≤ ts.length := by omega
    have hidx : ts.length - posFromEnd < ts.length := by omega
    have hx := sentencesAtEnd_pair ts hge hpe
    have hgdx : ts.getD (ts.length - posFromEnd) "" = ts[ts.length - posFromEnd] :=
      getD_in_range hidx
    have hmem : ts[ts.length - posFromEnd] ∈ ts := List.getElem_mem hidx
    have hsimx : areSentencesSimilar (sentencesAtEnd [ts, ts] posFromEnd) = true := by
      rw [hx, hgdx]
      exact sim_self_with_tokens (hsim _ hmem)
    unfold closingScanAux
    rw [hsimx]
    simp only [if_true]
    rw [ih (posFromEnd + 1) (by omega) (by omega)]
    rw [hx]
    have harith : ts.length + 1 - (posFromEnd + 1) - rem = ts.length - posFromEnd - rem := by
      omega
    rw [harith]
    have harith2 : ts.length + 1 - posFromEnd - (rem + 1) = ts.length - posFromEnd - rem := by
      omega
    rw [harith2]
    rw [List.take_succ]
    have hgd : (ts.drop (ts.length - posFromEnd - rem))[rem]?
        = some ts[ts.length - posFromEnd] := by
      rw [List.getElem?_drop]
      have harith3 : ts.length - posFromEnd - rem + rem = ts.length - posFromEnd := by omega
      rw [harith3]
      exact List.getElem?_eq_getElem hidx
    rw [hgd, hgdx]
    rfl

theorem if_beq_zero_min (m : Nat) : (if m == 0 then m else min m m) = m := by
  by_cases h : m = 0
  · subst h; simp
  · simp [h, Nat.min_self]

theorem buildSamplesState_pair {c : String} (hc : c ≠ "") (hms : matchSentences c ≠ []) :
    buildSamplesState [c, c] =
      ([(matchSentences c).map jsTrim, (matchSentences c).map jsTrim],
        (matchSentences c).length / 2) := by
  have hbe : (c == "") = false := by simpa using hc
  have hlen : 0 < (matchSentences c).length := List.length_pos.mpr hms
  unfold buildSamplesState
  simp only [List.foldl_cons, List.foldl_nil, hbe, Bool.false_eq_true, if_false,
    if_pos hlen]
  simp only [Nat.zero_eq, beq_self_eq_true, if_true, List.nil_append]
  rw [if_beq_zero_min]
  simp

theorem extractCommonPatterns_single {c : String} (hc : c ≠ "") :
    extractCommonPatterns [c] =
      ([(((matchSentences c).head?).map jsTrim).getD ""],
        [(((matchSentences c).getLast?).map jsTrim).getD ""]) := by
  have hbe : (c == "") = false := by simpa using hc
  unfold extractCommonPatterns
  rw [if_pos (by simp)]
  simp only [List.length_cons, List.length_nil, List.headD, hbe, Bool.not_false,
    beq_self_eq_true, Bool.and_self, if_true]

theorem buildSamplesState_pair_nil {c : String} (hms : matchSentences c = []) :
    buildSamplesState [c, c] = ([], 0) := by
  by_cases hc : c = ""
  · subst hc; decide
  · have hbe : (c == "") = false := by simpa using hc
    unfold buildSamplesState
    simp [hbe, hms]

/-- C3 (amended): with 0 samples `extractCommonPatterns` returns an empty
pattern set; with exactly 1 sample whose trimmed sentences are
`["A.", "B.", "C."]` it returns the first sentence as sole opening and
the last as sole closing; with 2 identical samples *each of whose
sentences yields at least one token longer than 3 characters* the full
trimmed sentence sequence is recognized as opening and closing pattern
up to `maxOpeningPatternLength = ⌊sentence count / 2⌋`. -/
theorem pattern_extraction_boundary :
    extractCommonPatterns [] = ([], []) ∧
    (∀ c : String, (matchSentences c).map jsTrim = ["A.", "B.", "C."] →
      extractCommonPatterns [c] = (["A."], ["C."])) ∧
    (∀ c : String, (∀ s ∈ (matchSentences c).map jsTrim, tokenizeSentence s ≠ []) →
      extractCommonPatterns [c, c] =
        (((matchSentences c).map jsTrim).take ((matchSentences c).length / 2),
          ((matchSentences c).map jsTrim).drop
            ((matchSentences c).length - (matchSentences c).length / 2))) := by
  refine ⟨by decide, ?_, ?_⟩
  · intro c hmap
    have hcne : c ≠ "" := by
      intro h
      subst h
      revert hmap
      decide
    rw [extractCommonPatterns_single hcne]
    have hh : (matchSentences c).head?.map jsTrim = some "A." := by
      rw [← List.head?_map, hmap]
      rfl
    have hl : (matchSentences c).getLast?.map jsTrim = some "C." := by
      rw [← List.getLast?_map, hmap]
      simp
    rw [hh, hl]
    rfl
  · intro c hsim
    rcases eq_or_ne c "" with rfl | hc
    · decide
    rcases eq_or_ne (matchSentences c) [] with hms | hms
    · have hb := buildSamplesState_pair_nil hms
      unfold extractCommonPatterns
      rw [if_neg (by simp), hb]
      rw [hms]
      simp
    · have hb := buildSamplesState_pair hc hms
      unfold extractCommonPatterns
      rw [if_neg (by simp)]
      rw [hb]
      rw [if_neg (by simp)]
      have hlen_ts : ((matchSentences c).map jsTrim).length = (matchSentences c).length := by
        simp
      have e1 := openingScanAux_pair hsim ((matchSentences c).length / 2) 0
        (by rw [hlen_ts]; omega)
      have e2 := closingScanAux_pair hsim ((matchSentences c).length / 2) 1
        (by omega) (by rw [hlen_ts]; omega)
      rw [e1, e2]
      rw [List.drop_zero]
      have h3 : ((matchSentences c).map jsTrim).length + 1 - 1 - (matchSentences c).length / 2
          = (matchSentences c).length - (matchSentences c).length / 2 := by
        rw [hlen_ts]
        omega
      rw [h3]
      have h4 : ((((matchSentences c).map jsTrim).drop
            ((matchSentences c).length - (matchSentences c).length / 2)).take
              ((matchSentences c).length / 2))
          = ((matchSentences c).map jsTrim).drop
              ((matchSentences c).length - (matchSentences c).length / 2) := by
        apply List.take_of_length_le
        rw [List.length_drop, hlen_ts]
        omega
      rw [h4]

/-- C3 counterexample: two identical samples `"Aa. Bb."` — every sentence
is non-empty, the sentence count is 2, so the claim as stated demands
opening `["Aa."]` and closing `["Bb."]` (`maxOpeningPatternLength = 1`);
but no sentence yields a token longer than 3 characters, the average
pairwise Jaccard similarity is 0 and no lexicon phrase fires, so the code
recognizes no pattern at all. -/
theorem pattern_extraction_two_identical_refuted :
    extractCommonPatterns ["Aa. Bb.", "Aa. Bb."] = ([], []) ∧
    (([], []) : List String × List String) ≠ (["Aa."], ["Bb."]) := by
  constructor
  · have h1 : areSentencesSimilar ["Aa.", "Aa."] = false :=
      sim_self_no_tokens (by decide) (by decide) (by decide)
    have h2 : areSentencesSimilar ["Bb.", "Bb."] = false :=
      sim_self_no_tokens (by decide) (by decide) (by decide)
    have hb : buildSamplesState ["Aa. Bb.", "Aa. Bb."]
        = ([["Aa.", "Bb."], ["Aa.", "Bb."]], 1) := by decide
    unfold extractCommonPatterns
    rw [if_neg (by simp), hb]
    rw [if_neg (by simp)]
    have ho : openingScanAux [["Aa.", "Bb."], ["Aa.", "Bb."]] 0 1 = [] := by
      unfold openingScanAux
      have hxs : sentencesAt [["Aa.", "Bb."], ["Aa.", "Bb."]] 0 = ["Aa.", "Aa."] := by decide
      rw [hxs, h1]
      simp
    have hcl : closingScanAux [["Aa.", "Bb."], ["Aa.", "Bb."]] 1 1 = [] := by
      unfold closingScanAux
      have hxs : sentencesAtEnd [["Aa.", "Bb."], ["Aa.", "Bb."]] 1 = ["Bb.", "Bb."] := by
        decide
      rw [hxs, h2]
      simp
    rw [ho, hcl]
  · decide

/-- Witness for C3: the single-sample part at `"A. B. C."` and the
two-identical-samples part at a sample with two long-token sentences. -/
theorem pattern_extraction_boundary_witness :
    extractCommonPatterns ["A. B. C."] = (["A."], ["C."]) ∧
    extractCommonPatterns ["Hello there friend. Goodbye dear friend.",
        "Hello there friend. Goodbye dear friend."]
      = (["Hello there friend."], ["Goodbye dear friend."]) := by
  constructor
  · exact pattern_extraction_boundary.2.1 "A. B. C." (by decide)
  · have h := pattern_extraction_boundary.2.2
      "Hello there friend. Goodbye dear friend." (by decide)
    rw [h]
    decide

/-- C10: with exactly one sample whose content is non-empty but matches
no sentence of the terminal-punctuation heuristic, the extractor returns
singleton sequences holding the empty string, not empty sequences. -/
theorem single_sample_no_sentence_match (c : String) (hc : c ≠ "")
    (hms : matchSentences c = []) :
    extractCommonPatterns [c] = ([""], [""]) := by
  rw [extractCommonPatterns_single hc, hms]
  rfl

/-- Witness for C10 at the terminator-free content `"abc"`. -/
theorem single_sample_no_sentence_match_witness :
    extractCommonPatterns ["abc"] = ([""], [""]) :=
  single_sample_no_sentence_match "abc" (by decide) (by decide)

/-! ### The similarity threshold (claim C4) -/

theorem avgLengthOf_pair (s t : String) :
    avgLengthOf [s, t] = ((s.length : ℚ) + (t.length : ℚ)) / 2 := by
  unfold avgLengthOf
  simp only [List.map_cons, List.map_nil, List.foldl_cons, List.foldl_nil,
    List.length_cons, List.length_nil]
  norm_num

theorem jaccardPairs_pair (a b : List String) : jaccardPairs [a, b] = [jaccardSim a b] := by
  simp [jaccardPairs]

theorem avgSimilarityOf_pair (a b : List String) :
    avgSimilarityOf [a, b] = jaccardSim a b := by
  unfold avgSimilarityOf
  rw [jaccardPairs_pair]
  simp only [List.length_cons, List.length_nil, List.foldl_cons, List.foldl_nil]
  rw [if_pos (by norm_num)]
  push_cast
  ring

theorem jaccardSim_nil_left (b : List String) : jaccardSim [] b = 0 := by
  unfold jaccardSim
  simp

theorem jaccardSim_nil_right (a : List String) : jaccardSim a [] = 0 := by
  unfold jaccardSim
  simp

theorem jaccardSim_pos_ne_nil {a b : List String} (h : 0 < jaccardSim a b) :
    a ≠ [] ∧ b ≠ [] := by
  constructor
  · intro ha
    subst ha
    rw [jaccardSim_nil_left] at h
    exact lt_irrefl _ h
  · intro hb
    subst hb
    rw [jaccardSim_nil_right] at h
    exact lt_irrefl _ h

/-- Two sentences that both pass the length filter and whose token
arrays have pairwise similarity at least 0.3 are judged similar. -/
theorem pair_similar_of_overlap {s t : String}
    (hs : lengthPasses (avgLengthOf [s, t]) s = true)
    (ht : lengthPasses (avgLengthOf [s, t]) t = true)
    (hJ : 3/10 ≤ jaccardSim (tokenizeSentence s) (tokenizeSentence t)) :
    areSentencesSimilar [s, t] = true := by
  obtain ⟨hta, htb⟩ := jaccardSim_pos_ne_nil (lt_of_lt_of_le (by norm_num) hJ)
  have hsne : s ≠ "" := by
    intro h
    subst h
    exact hta (by decide)
  have htne : t ≠ "" := by
    intro h
    subst h
    exact htb (by decide)
  unfold areSentencesSimilar
  simp only [List.length_cons, List.length_nil]
  rw [if_neg (by omega)]
  rw [if_neg (by simp [hsne, htne])]
  have hfilter : [s, t].filter (lengthPasses (avgLengthOf [s, t])) = [s, t] := by
    simp [List.filter, hs, ht]
  rw [hfilter]
  rw [if_neg (by push_cast; norm_num)]
  have hpairs : avgSimilarityOf ([s, t].map tokenizeSentence)
      = jaccardSim (tokenizeSentence s) (tokenizeSentence t) := by
    simp only [List.map_cons, List.map_nil]
    exact avgSimilarityOf_pair _ _
  rw [hpairs]
  rw [decide_eq_true hJ]
  rfl

/-- Two sentences whose length ratio exceeds 13/7 are both removed by
the length filter (each deviates more than 30 percent from the pair's mean
length), so more than 30 percent of the group is filtered out and the
sentences are judged dissimilar regardless of wording. -/
theorem pair_dissimilar_of_length_gap {s t : String}
    (h : 13 * s.length < 7 * t.length) :
    areSentencesSimilar [s, t] = false := by
  unfold areSentencesSimilar
  simp only [List.length_cons, List.length_nil]
  rw [if_neg (by omega)]
  by_cases hs0 : s = ""
  · rw [if_pos (by simp [hs0])]
  · have hL1 : 0 < s.length := Nat.pos_of_ne_zero (length_ne_zero_of_ne_empty hs0)
    have hL2 : 0 < t.length := by omega
    have htne : t ≠ "" := by
      intro ht
      subst ht
      have : ("" : String).length = 0 := rfl
      omega
    rw [if_neg (by simp [hs0, htne])]
    have hq : (13 : ℚ) * s.length < 7 * t.length := by exact_mod_cast h
    have hq1 : (0 : ℚ) < s.length := by exact_mod_cast hL1
    have hq2 : (0 : ℚ) < t.length := by exact_mod_cast hL2
    have havgpos : 0 < ((s.length : ℚ) + (t.length : ℚ)) / 2 := by
      apply div_pos
      · linarith
      · norm_num
    have hfs : lengthPasses (avgLengthOf [s, t]) s = false := by
      unfold lengthPasses
      rw [avgLengthOf_pair]
      have hlt : (s.length : ℚ) / (((s.length : ℚ) + (t.length : ℚ)) / 2) < 7/10 := by
        rw [div_lt_iff₀ havgpos]
        linarith
      rw [decide_eq_false (not_le.mpr hlt)]
      rfl
    have hft : lengthPasses (avgLengthOf [s, t]) t = false := by
      unfold lengthPasses
      rw [avgLengthOf_pair]
      have hgt : (13/10 : ℚ) < (t.length : ℚ) / (((s.length : ℚ) + (t.length : ℚ)) / 2) := by
        rw [lt_div_iff₀ havgpos]
        linarith
      rw [decide_eq_false (not_le.mpr hgt)]
      simp
    have hfilter : [s, t].filter (lengthPasses (avgLengthOf [s, t])) = [] := by
      simp [List.filter, hfs, hft]
    rw [hfilter]
    rw [if_pos (by simp only [List.length_nil, decide_eq_true_eq]; push_cast; norm_num)]

/-- C4 (amended): two sentences that both pass the 0.7–1.3 length
filter relative to the pair's mean length and whose long-token arrays
have (pairwise Jaccard) similarity at least 0.3 are judged similar; two
sentences whose length ratio exceeds 13/7 — only then does the length
filter drop both of them, removing more than 30 percent of the group — are
judged dissimilar even with identical wording.  (As stated, with the
threshold at ratio 1.3, the claim fails: see the counterexample.) -/
theorem similarity_threshold :
    (∀ s t : String, lengthPasses (avgLengthOf [s, t]) s = true →
      lengthPasses (avgLengthOf [s, t]) t = true →
      3/10 ≤ jaccardSim (tokenizeSentence s) (tokenizeSentence t) →
      areSentencesSimilar [s, t] = true) ∧
    (∀ s t : String, 13 * s.length < 7 * t.length →
      areSentencesSimilar [s, t] = false) :=
  ⟨fun _ _ hs ht hJ => pair_similar_of_overlap hs ht hJ,
    fun _ _ h => pair_dissimilar_of_length_gap h⟩

/-- C4 counterexample: the pair `"wonderful students."` (length 19) and
`"wonderful wonderful students."` (length 29) has length ratio
29/19 > 1.3, yet both sentences survive the length filter (the filter
only reacts above ratio 13/7) and the token overlap is total, so the
code judges them *similar* — refuting "dissimilar for ratio > 1.3". -/
theorem similarity_threshold_refuted :
    13 * ("wonderful students." : String).length
        < 10 * ("wonderful wonderful students." : String).length ∧
    areSentencesSimilar ["wonderful students.", "wonderful wonderful students."] = true := by
  constructor
  · decide
  · have hls : ("wonderful students." : String).length = 19 := by decide
    have hlt : ("wonderful wonderful students." : String).length = 29 := by decide
    have havg : avgLengthOf ["wonderful students.", "wonderful wonderful students."]
        = 24 := by
      rw [avgLengthOf_pair, hls, hlt]
      norm_num
    have hs : lengthPasses
        (avgLengthOf ["wonderful students.", "wonderful wonderful students."])
        "wonderful students." = true := by
      unfold lengthPasses
      rw [havg, hls]
      rw [decide_eq_true (by norm_num : (7/10 : ℚ) ≤ (19 : Nat) / (24 : ℚ))]
      rw [decide_eq_true (by norm_num : ((19 : Nat) : ℚ) / (24 : ℚ) ≤ 13/10)]
      rfl
    have ht : lengthPasses
        (avgLengthOf ["wonderful students.", "wonderful wonderful students."])
        "wonderful wonderful students." = true := by
      unfold lengthPasses
      rw [havg, hlt]
      rw [decide_eq_true (by norm_num : (7/10 : ℚ) ≤ (29 : Nat) / (24 : ℚ))]
      rw [decide_eq_true (by norm_num : ((29 : Nat) : ℚ) / (24 : ℚ) ≤ 13/10)]
      rfl
    have hta : tokenizeSentence "wonderful students." = ["wonderful", "students"] := by
      decide
    have htb : tokenizeSentence "wonderful wonderful students."
        = ["wonderful", "wonderful", "students"] := by decide
    have hj : jaccardSim ["wonderful", "students"] ["wonderful", "wonderful", "students"]
        = 1 := by
      unfold jaccardSim
      have hint : ["wonderful", "students"].filter
          (fun w => ["wonderful", "wonderful", "students"].contains w)
            = ["wonderful", "students"] := by decide
      have huk : (objectKeys (["wonderful", "students"] ++
          ["wonderful", "wonderful", "students"])).length = 2 := by decide
      rw [hint, huk]
      rw [if_pos (by norm_num)]
      norm_num
    apply pair_similar_of_overlap hs ht
    rw [hta, htb, hj]
    norm_num

/-- Witness for C4: a near-equal-length pair with half of its tokens
shared is judged similar; a pair with length ratio beyond 13/7 is
judged dissimilar. -/
theorem similarity_threshold_witness :
    areSentencesSimilar ["great workers here.", "great workers there."] = true ∧
    areSentencesSimilar ["ab.", "abcdefghij."] = false := by
  constructor
  · have hls : ("great workers here." : String).length = 19 := by decide
    have hlt : ("great workers there." : String).length = 20 := by decide
    have havg : avgLengthOf ["great workers here.", "great workers there."]
        = 39/2 := by
      rw [avgLengthOf_pair, hls, hlt]
      norm_num
    have hs : lengthPasses (avgLengthOf ["great workers here.", "great workers there."])
        "great workers here." = true := by
      unfold lengthPasses
      rw [havg, hls]
      rw [decide_eq_true (by norm_num : (7/10 : ℚ) ≤ (19 : Nat) / ((39 : ℚ)/2))]
      rw [decide_eq_true (by norm_num : ((19 : Nat) : ℚ) / ((39 : ℚ)/2) ≤ 13/10)]
      rfl
    have ht : lengthPasses (avgLengthOf ["great workers here.", "great workers there."])
        "great workers there." = true := by
      unfold lengthPasses
      rw [havg, hlt]
      rw [decide_eq_true (by norm_num : (7/10 : ℚ) ≤ (20 : Nat) / ((39 : ℚ)/2))]
      rw [decide_eq_true (by norm_num : ((20 : Nat) : ℚ) / ((39 : ℚ)/2) ≤ 13/10)]
      rfl
    have hta : tokenizeSentence "great workers here." = ["great", "workers", "here"] := by
      decide
    have htb : tokenizeSentence "great workers there." = ["great", "workers", "there"] := by
      decide
    have hj : jaccardSim ["great", "workers", "here"] ["great", "workers", "there"]
        = 1/2 := by
      unfold jaccardSim
      have hint : ["great", "workers", "here"].filter
          (fun w => ["great", "workers", "there"].contains w) = ["great", "workers"] := by
        decide
      have huk : (objectKeys (["great", "workers", "here"] ++
          ["great", "workers", "there"])).length = 4 := by decide
      rw [hint, huk]
      rw [if_pos (by norm_num)]
      norm_num
    apply similarity_threshold.1
    · exact hs
    · exact ht
    · rw [hta, htb, hj]
      norm_num
  · exact similarity_threshold.2 "ab." "abcdefghij." (by decide)

/-! ## Template categorization
(`ContentGenerator.categorizeTemplate`, contentGenerator.ts 249–362, and
`WritingSampleAnalyzer.analyzeSample`/`parseAnalysisResponse`,
src/unnamed/part_004 21–150) -/

inductive LetterPosition
  | opening
  | middle
  | closing
deriving DecidableEq, Repr

structure TemplateItem where
  category : String
  originalSentence : String
  position : LetterPosition
deriving DecidableEq, Repr

/-- `categories[index] || 'commentary'` (an empty string is falsy). -/
def orCommentary (s : String) : String := if s = "" then "commentary" else s

/-- Pad with `'commentary'` / truncate so the label list matches the
sentence count (the `while`/`slice` block at lines 333–339). -/
def padTruncate (cats : List String) (n : Nat) : List String :=
  (cats ++ List.replicate (n - cats.length) "commentary").take n

/-- The position tag assigned at lines 342–354: index 0 is `opening`;
otherwise, for `length ≥ 3`, indices `≥ length - 2` are `closing`; for
`length < 3` the final index is `closing`; everything else `middle`. -/
def positionFor (n idx : Nat) : LetterPosition :=
  if idx = 0 then .opening
  else if 3 ≤ n ∧ n - 2 ≤ idx then .closing
  else if n < 3 ∧ idx = n - 1 then .closing
  else .middle

/-- The final `sentences.map((sentence, index) => ...)` of
`categorizeTemplate`: pair each trimmed sentence with its (padded)
category label and its position tag. -/
def mkTemplateItems (sentences : List String) (cats : List String) : List TemplateItem :=
  sentences.enum.map (fun p =>
    { category := orCommentary ((padTruncate cats sentences.length).getD p.1 "")
      originalSentence := jsTrim p.2
      position := positionFor sentences.length p.1 })

/-- *Spec-side* definition (for the refinement claim C5), following the
spec's words: "index 0 is always `opening`; for sequences of length ≥ 3
the last two items are `closing`; for length < 3 only the final item is
`closing`; everything else is `middle`" — read as ordered rules, first
match wins. -/
def specPositionTag (n idx : Nat) : LetterPosition :=
  if idx = 0 then .opening
  else if 3 ≤ n ∧ n - 2 ≤ idx then .closing
  else if n < 3 ∧ idx = n - 1 then .closing
  else .middle

/-- C5: the sequence returned by `categorizeTemplate` is position-tagged
exactly by the spec's rule, for every sentence list and every label list
the model may produce; in particular a 5-sentence template is tagged
`[opening, middle, middle, closing, closing]` and a 2-sentence template
`[opening, closing]`. -/
theorem template_position_tagging :
    (∀ sentences cats : List String,
      (mkTemplateItems sentences cats).map (fun item => item.position)
        = (List.range sentences.length).map (specPositionTag sentences.length)) ∧
    (∀ cats : List String, ∀ s1 s2 s3 s4 s5 : String,
      (mkTemplateItems [s1, s2, s3, s4, s5] cats).map (fun item => item.position)
        = [.opening, .middle, .middle, .closing, .closing]) ∧
    (∀ cats : List String, ∀ s1 s2 : String,
      (mkTemplateItems [s1, s2] cats).map (fun item => item.position)
        = [.opening, .closing]) := by
  have h1 : ∀ sentences cats : List String,
      (mkTemplateItems sentences cats).map (fun item => item.position)
        = (List.range sentences.length).map (specPositionTag sentences.length) := by
    intro sentences cats
    apply List.ext_getElem
    · simp [mkTemplateItems]
    · intro i hi1 hi2
      simp only [mkTemplateItems, List.getElem_map, List.getElem_enum, List.getElem_range]
      rfl
  refine ⟨h1, ?_, ?_⟩
  · intro cats s1 s2 s3 s4 s5
    rw [h1]
    simp only [List.length_cons, List.length_nil]
    decide
  · intro cats s1 s2
    rw [h1]
    simp only [List.length_cons, List.length_nil]
    decide

/-- `s.split('\n')` (single-character separator, empty chunks kept). -/
def jsLines (s : String) : List String :=
  (s.data.splitOn '\n').map (fun l => (⟨l⟩ : String))

/-- `line.replace(/^\d+\.\s*/, '')`: strip one leading run of digits
followed by a period and optional whitespace. -/
def stripNumbering (s : String) : String :=
  if (s.data.takeWhile Char.isDigit).isEmpty then s
  else
    match s.data.drop (s.data.takeWhile Char.isDigit).length with
    | '.' :: r2 => ⟨r2.dropWhile isWsChar⟩
    | _ => s

/-- Embedding of `ContentGenerator.validateCategory` (lines 367–388):
case-insensitive substring normalization onto the five canonical names,
defaulting to `commentary`. -/
def validateCategory (category : String) : String :=
  if category = "" then "commentary"
  else
    if containsSub (jsTrim (lowerStr category)) "introduction" ||
        containsSub (jsTrim (lowerStr category)) "context" then "introduction_context"
    else if containsSub (jsTrim (lowerStr category)) "endorse" then "endorsement"
    else if containsSub (jsTrim (lowerStr category)) "comment" then "commentary"
    else if containsSub (jsTrim (lowerStr category)) "quality" ||
        containsSub (jsTrim (lowerStr category)) "qualities" then "qualities"
    else if containsSub (jsTrim (lowerStr category)) "further" ||
        containsSub (jsTrim (lowerStr category)) "discussion" then "further_discussion"
    else "commentary"

/-- The greedy regex `/\[([\s\S]*)\]/`: from the first `[` to the last
`]` after it, or no match. -/
def bracketSpan (s : String) : Option String :=
  if (s.data.dropWhile (fun c => c != '[')).isEmpty then none
  else if ((s.data.dropWhile (fun c => c != '[')).reverse.dropWhile
      (fun c => c != ']')).isEmpty then none
  else some ⟨((s.data.dropWhile (fun c => c != '[')).reverse.dropWhile
      (fun c => c != ']')).reverse⟩

/-- The greedy regex `/\{[\s\S]*\}/` (braces written by code point). -/
def braceSpan (s : String) : Option String :=
  if (s.data.dropWhile (fun c => c != Char.ofNat 123)).isEmpty then none
  else if ((s.data.dropWhile (fun c => c != Char.ofNat 123)).reverse.dropWhile
      (fun c => c != Char.ofNat 125)).isEmpty then none
  else some ⟨((s.data.dropWhile (fun c => c != Char.ofNat 123)).reverse.dropWhile
      (fun c => c != Char.ofNat 125)).reverse⟩

/-- The category-extraction of `categorizeTemplate` (lines 293–328):
try the bracketed JSON array (`jsonArr` abstracts the platform
`JSON.parse`, `none` = parse threw, in which case `categories = []`);
otherwise fall back to line-by-line label normalization. -/
def parseTemplateCategories (jsonArr : String → Option (List String))
    (responseText : String) : List String :=
  match bracketSpan responseText with
  | some jsonStr => (jsonArr jsonStr).getD []
  | none =>
      ((jsLines responseText).filter (fun line => (jsTrim line).length > 0)).map
        (fun line => validateCategory (jsTrim (stripNumbering line)))

/-- The prompt template of `categorizeTemplate` (lines 267–279). -/
def templatePrompt (sentences : List String) : String :=
  "\nCategorize each of the following sentences from a teacher\x27s recommendation letter into one of these categories:\n- introduction_context (sentences that introduce the student or provide background)\n- endorsement (sentences that directly support/endorse the student)\n- commentary (sentences that offer opinions or observations)\n- qualities (sentences that highlight specific skills or attributes)\n- further_discussion (sentences inviting follow-up or providing contact information)\n\nFor each sentence, respond ONLY with the category name. Provide your answers as a JSON array of strings, with each element being just the category name.\n\nSentences to categorize:\n"
    ++ String.intercalate "\n"
        ((sentences.enum).map (fun p => toString (p.1 + 1) ++ ". " ++ jsTrim p.2))
    ++ "\n"

/-- Embedding of `ContentGenerator.categorizeTemplate` (lines 249–362).
`respond` abstracts the model backend (prompt in, `response.text || ''`
out); the second component counts the model calls made.  Both empty
input and input with no sentence match return before the call. -/
def categorizeTemplateRun (respond : String → String)
    (jsonArr : String → Option (List String)) (templateContent : String) :
    List TemplateItem × Nat :=
  if templateContent = "" then ([], 0)
  else if (matchSentences templateContent).length = 0 then ([], 0)
  else
    (mkTemplateItems (matchSentences templateContent)
      (parseTemplateCategories jsonArr
        (respond (templatePrompt (matchSentences templateContent)))), 1)

/-- The prompt template of `analyzeSample` (part_004, lines 24–38). -/
def analysisPrompt (sample : String) : String :=
  "\nSplit the sentences from the following passage into these categories: \n- introduction/context (sentences that introduce the student or provide background)\n- endorsement (sentences that directly support/endorse the student)\n- commentary (sentences that offer opinions or observations)\n- qualities (sentences that highlight specific skills or attributes)\n- requests for further discussion (sentences inviting follow-up or providing contact information)\n\nFormat your response as a JSON object with these exact keys: introduction_context, endorsement, commentary, qualities, further_discussion. \nEach key should have an array of strings, with each string being a complete sentence from the passage.\nEvery sentence from the passage must be included in exactly one category.\n\nPASSAGE:\n"
    ++ sample ++ "\n"

inductive CatKey
  | ic
  | en
  | co
  | qu
  | fd
deriving DecidableEq, Repr

def pushCat (acc : AnalysisCategories) : CatKey → String → AnalysisCategories
  | .ic, s => { acc with introduction_context := acc.introduction_context ++ [s] }
  | .en, s => { acc with endorsement := acc.endorsement ++ [s] }
  | .co, s => { acc with commentary := acc.commentary ++ [s] }
  | .qu, s => { acc with qualities := acc.qualities ++ [s] }
  | .fd, s => { acc with further_discussion := acc.further_discussion ++ [s] }

def categoryHeaders : List String :=
  ["introduction/context", "endorsement", "commentary", "qualities",
   "requests for further discussion"]

/-- `trimmedLine.replace(/^[â€¢\-*]\s*/, '')`: strip one leading bullet
character (the mojibake byte triple of a bullet point, a dash or an
asterisk, written by code point) and following whitespace. -/
def stripBullet (s : String) : String :=
  match s.data with
  | [] => s
  | c :: rest =>
      if c = Char.ofNat 0xE2 ∨ c = Char.ofNat 0x20AC ∨ c = Char.ofNat 0xA2 ∨
          c = '-' ∨ c = '*' then ⟨rest.dropWhile isWsChar⟩
      else s

/-- One line of the manual fallback scan of `parseAnalysisResponse`
(part_004, lines 116–147): header lines switch the current category,
other non-empty non-bullet lines are accumulated under it. -/
def scanStep (st : Option CatKey × AnalysisCategories) (line : String) :
    Option CatKey × AnalysisCategories :=
  if categoryHeaders.any (fun h => containsSub (lowerStr (jsTrim line)) (lowerStr h)) then
    ( if containsSub (lowerStr (jsTrim line)) "introduction" then some .ic
      else if containsSub (lowerStr (jsTrim line)) "endorsement" then some .en
      else if containsSub (lowerStr (jsTrim line)) "commentary" then some .co
      else if containsSub (lowerStr (jsTrim line)) "qualities" then some .qu
      else if containsSub (lowerStr (jsTrim line)) "further" ||
          containsSub (lowerStr (jsTrim line)) "discussion" then some .fd
      else st.1,
      st.2)
  else
    match st.1 with
    | some k =>
        if (jsTrim line).length > 0 && !((jsTrim line).startsWith "-") &&
            !((jsTrim line).startsWith "#") then
          if (jsTrim (stripBullet (jsTrim line))).length > 0 then
            (st.1, pushCat st.2 k (jsTrim (stripBullet (jsTrim line))))
          else st
        else st
    | none => st

def fallbackScan (responseText : String) : AnalysisCategories :=
  ((jsLines responseText).foldl scanStep (none, emptyCategories)).2

/-- Embedding of `WritingSampleAnalyzer.parseAnalysisResponse`
(part_004, lines 76–150).  `jsonCats` abstracts the platform
`JSON.parse` together with the per-key `Array.isArray` coercion
(`none` = parse threw); any parse failure falls back to the line scan. -/
def parseAnalysisResponse (jsonCats : String → Option AnalysisCategories)
    (responseText : String) : AnalysisCategories :=
  match braceSpan responseText with
  | some js =>
      match jsonCats js with
      | some r => r
      | none => fallbackScan responseText
  | none => fallbackScan responseText

/-- Embedding of `WritingSampleAnalyzer.analyzeSample` (part_004, lines
21–71): the prompt is built and the model call issued *unconditionally*
— there is no empty-input guard, so the call count (second component)
is 1 for every input.  The store and database writes it then performs
are embedded separately (`storeAndAppendCategories`). -/
def analyzeSampleRun (respond : String → String)
    (jsonCats : String → Option AnalysisCategories) (sample : String) :
    AnalysisCategories × Nat :=
  (parseAnalysisResponse jsonCats (respond (analysisPrompt sample)), 1)

/-- C6 (amended): for empty input the template-categorization variant
returns an empty template structure and makes no model call (likewise
when no sentence matches the splitting heuristic); the sample
categorizer `analyzeSample`, by contrast, has no empty-input guard and
issues exactly one model call even for empty text. -/
theorem empty_input_no_model_call :
    (∀ (respond : String → String) (jsonArr : String → Option (List String)),
      categorizeTemplateRun respond jsonArr "" = ([], 0)) ∧
    (∀ (respond : String → String) (jsonArr : String → Option (List String))
      (content : String), matchSentences content = [] →
      categorizeTemplateRun respond jsonArr content = ([], 0)) ∧
    (∀ (respond : String → String) (jsonCats : String → Option AnalysisCategories)
      (sample : String), (analyzeSampleRun respond jsonCats sample).2 = 1) := by
  refine ⟨fun respond jsonArr => rfl, ?_, fun respond jsonCats sample => rfl⟩
  intro respond jsonArr content h
  unfold categorizeTemplateRun
  by_cases hc : content = ""
  · rw [if_pos hc]
  · rw [if_neg hc, if_pos (by rw [h]; rfl)]

/-- C6 counterexample: on empty input text the sample categorizer still
issues its model call — the call count is 1, not 0 as the claim
demands. -/
theorem categorize_empty_calls_model :
    (analyzeSampleRun (fun _ => "") (fun _ => none) "").2 = 1 ∧ (1 : Nat) ≠ 0 :=
  ⟨rfl, by decide⟩

/-- Witness for C6 at concrete backend stubs and the sentence-free
content `"abc"`. -/
theorem empty_input_no_model_call_witness :
    categorizeTemplateRun (fun _ => "x") (fun _ => none) "abc" = ([], 0) :=
  empty_input_no_model_call.2.1 (fun _ => "x") (fun _ => none) "abc" (by decide)

/-! ## Letter assembly (`ContentGenerator.generateLetter`,
contentGenerator.ts, lines 394–456) -/

/-- `categorizedSentences[category] || []`: lookup of a (string-valued)
category key in the store, `[]` for anything but the five fixed keys. -/
def lookupCategory (c : AnalysisCategories) (k : String) : List String :=
  if k = "introduction_context" then c.introduction_context
  else if k = "endorsement" then c.endorsement
  else if k = "commentary" then c.commentary
  else if k = "qualities" then c.qualities
  else if k = "further_discussion" then c.further_discussion
  else []

/-- The per-item substitution (lines 409–443): an `opening`/`closing`
item draws a random pattern sentence when the pattern set is non-empty;
otherwise the item's category is sampled from the store; an empty
category keeps the original sentence.  `rnd` is this item's random draw
(reduced modulo the sampled list's length, the exact range of
`Math.floor(Math.random() * n)`). -/
def replaceItem (store : AnalysisCategories) (openingSentences closingSentences : List String)
    (rnd : Nat) (item : TemplateItem) : String :=
  if item.position = .opening ∧ 0 < openingSentences.length then
    openingSentences.getD (rnd % openingSentences.length) ""
  else if item.position = .closing ∧ 0 < closingSentences.length then
    closingSentences.getD (rnd % closingSentences.length) ""
  else if (lookupCategory store item.category).length = 0 then item.originalSentence
  else (lookupCategory store item.category).getD
    (rnd % (lookupCategory store item.category).length) ""

/-- JavaScript `array.join(' ')`. -/
def jsJoin : List String → String
  | [] => ""
  | [a] => a
  | a :: rest => a ++ " " ++ jsJoin rest

/-- The draft sentence list (lines 446–448), including the
`item.replacementSentence || item.originalSentence` fallback (an empty
replacement falls back to the original). -/
def assembledSentences (template : List TemplateItem) (store : AnalysisCategories)
    (ops cls : List String) (rnd : Nat → Nat) : List String :=
  template.enum.map (fun p =>
    if replaceItem store ops cls (rnd p.1) p.2 = "" then p.2.originalSentence
    else replaceItem store ops cls (rnd p.1) p.2)

/-- Embedding of the draft-assembly stage of
`ContentGenerator.generateLetter`: an empty template yields the fixed
apology string; otherwise the space-joined substituted sentences in
template order.  (The draft is then handed to `personalizeLetter`,
embedded separately.) -/
def generateDraft (template : List TemplateItem) (store : AnalysisCategories)
    (ops cls : List String) (rnd : Nat → Nat) : String :=
  if template = [] then
    "I couldn\x27t generate a recommendation letter due to insufficient template structure. Please ensure there are enough writing samples with complete sentences."
  else jsJoin (assembledSentences template store ops cls rnd)

/-- `needle` occurs verbatim (contiguously) inside `hay`. -/
def strContains (hay needle : String) : Prop := needle.data <:+: hay.data

theorem isInf_of_pre {α : Type} {l₁ l₂ : List α} (h : l₁ <+: l₂) : l₁ <:+: l₂ := by
  obtain ⟨t, ht⟩ := h
  exact ⟨[], t, by simpa using ht⟩

theorem isInf_of_suf {α : Type} {l₁ l₂ : List α} (h : l₁ <:+ l₂) : l₁ <:+: l₂ := by
  obtain ⟨t, ht⟩ := h
  exact ⟨t, [], by simpa using ht⟩

theorem strContains_jsJoin_of_mem {l : List String} {s : String} (h : s ∈ l) :
    strContains (jsJoin l) s := by
  induction l with
  | nil => cases h
  | cons a rest ih =>
    rcases List.mem_cons.mp h with rfl | hmem
    · cases rest with
      | nil => exact List.infix_rfl
      | cons b r =>
        show s.data <:+: (s ++ " " ++ jsJoin (b :: r)).data
        simp only [String.data_append]
        exact isInf_of_pre ((s.data.prefix_append _).trans (List.prefix_append _ _))
    · cases rest with
      | nil => cases hmem
      | cons b r =>
        have hr := ih hmem
        show s.data <:+: (a ++ " " ++ jsJoin (b :: r)).data
        simp only [String.data_append]
        exact hr.trans (isInf_of_suf (List.suffix_append _ _))

/-- C2: a template item whose position receives no pattern substitution
(its pattern list is empty when its position is opening/closing) and
whose category has no sentence in the store keeps its original template
sentence: position `i` of the draft sentence list is the original
sentence verbatim, and the assembled draft contains it. -/
theorem assembler_never_drops (template : List TemplateItem) (store : AnalysisCategories)
    (ops cls : List String) (rnd : Nat → Nat) (i : Nat) (hi : i < template.length)
    (hop : template[i].position = .opening → ops = [])
    (hcl : template[i].position = .closing → cls = [])
    (hcat : lookupCategory store template[i].category = []) :
    (assembledSentences template store ops cls rnd)[i]?
        = some template[i].originalSentence ∧
      strContains (generateDraft template store ops cls rnd)
        template[i].originalSentence := by
  have hrepl : replaceItem store ops cls (rnd i) template[i]
      = template[i].originalSentence := by
    unfold replaceItem
    rw [if_neg, if_neg, if_pos]
    · rw [hcat]
      rfl
    · rintro ⟨h1, h2⟩
      rw [hcl h1] at h2
      simp at h2
    · rintro ⟨h1, h2⟩
      rw [hop h1] at h2
      simp at h2
  have hget : (assembledSentences template store ops cls rnd)[i]?
      = some template[i].originalSentence := by
    unfold assembledSentences
    rw [List.getElem?_map]
    have henum : (template.enum)[i]? = some (i, template[i]) := by
      have : (template.enum)[i]? = template[i]?.map fun a => (0 + i, a) :=
        List.getElem?_enumFrom 0 template i
      rw [this, List.getElem?_eq_getElem hi]
      simp
    rw [henum]
    simp [hrepl]
  refine ⟨hget, ?_⟩
  have hmem : template[i].originalSentence ∈ assembledSentences template store ops cls rnd := by
    obtain ⟨h, heq⟩ := List.getElem?_eq_some.mp hget
    rw [← heq]
    exact List.getElem_mem h
  have hne : template ≠ [] := by
    intro h
    subst h
    simp at hi
  unfold generateDraft
  rw [if_neg hne]
  exact strContains_jsJoin_of_mem hmem

/-- Witness for C2: a one-item middle template with a category absent
from the store keeps its original sentence. -/
theorem assembler_never_drops_witness :
    (assembledSentences [⟨"nosuch", "Original kept sentence.", .middle⟩]
        emptyCategories [] [] (fun _ => 0))[0]?
      = some "Original kept sentence." ∧
    strContains (generateDraft [⟨"nosuch", "Original kept sentence.", .middle⟩]
        emptyCategories [] [] (fun _ => 0)) "Original kept sentence." := by
  have h := assembler_never_drops [⟨"nosuch", "Original kept sentence.", .middle⟩]
    emptyCategories [] [] (fun _ => 0) 0 (by decide)
    (fun _ => rfl) (fun _ => rfl) (by decide)
  exact h

/-! ## Owner-keyed storage: `getCategories` / `clearCategories`
(part_004, lines 152–157, 263–304).  `localStorage` is embedded as an
ordered key/value list (keys unique), exposing the same `getItem` /
`removeItem` / `key(i)` / `length` interface the code uses. -/

/-- `teacherName.replace(/\s+/g, '_')`: every maximal whitespace run
becomes one underscore (the flag tracks being inside a run). -/
def squashWsAux : Bool → List Char → List Char
  | _, [] => []
  | inRun, c :: rest =>
    if isWsChar c then
      if inRun then squashWsAux true rest else '_' :: squashWsAux true rest
    else c :: squashWsAux false rest

def normalizeOwner (s : String) : String := ⟨squashWsAux false s.data⟩

def getCategoryStorageKey (teacherName : String) : String :=
  "categorized_sentences_" ++ normalizeOwner teacherName

def samplePrefix (teacherName : String) : String :=
  "sample_" ++ normalizeOwner teacherName

/-- JavaScript `s.startsWith(pre)`. -/
def jsStartsWith (s pre : String) : Bool := pre.data.isPrefixOf s.data

/-- `localStorage.getItem` over the embedded store. -/
def getItem (storage : List (String × String)) (k : String) : Option String :=
  (storage.find? (fun kv => kv.1 == k)).map (fun kv => kv.2)

/-- `localStorage.removeItem` (keys are unique, so removing the first
match is removal of the entry). -/
def removeItemByKey (storage : List (String × String)) (k : String) :
    List (String × String) :=
  storage.eraseP (fun kv => kv.1 == k)

/-- The `for (let i = 0; i < localStorage.length; i++) { ... removeItem }`
loop of `clearCategories`: the index is incremented on every iteration
even when the removal has just shifted the subsequent keys down by one.
`i` increases and the length never grows, so the initial length bounds
the number of iterations (the fuel). -/
def clearLoopAux (pref : String) : Nat → List (String × String) → Nat →
    List (String × String)
  | 0, st, _ => st
  | fuel + 1, st, i =>
    if i < st.length then
      if jsStartsWith (st.getD i ("", "")).1 pref then
        clearLoopAux pref fuel (st.eraseIdx i) (i + 1)
      else clearLoopAux pref fuel st (i + 1)
    else st

/-- Embedding of `WritingSampleAnalyzer.clearCategories` (part_004,
lines 288–304): remove the owner's category entry, then scan the store
by index removing every key that starts with the owner's sample prefix
(see `clearLoopAux` for the index handling). -/
def clearCategories (storage : List (String × String)) (teacherName : String) :
    List (String × String) :=
  clearLoopAux (samplePrefix teacherName)
    (removeItemByKey storage (getCategoryStorageKey teacherName)).length
    (removeItemByKey storage (getCategoryStorageKey teacherName)) 0

/-- C7 (code bug): with two sample-snapshot keys adjacent in storage
order, `clearCategories` removes the category entry and the first
sample key but *skips* the second — removing index `i` shifts the next
key to index `i`, and the loop still increments `i`. The code's own
comment says it should "find and remove all related sample keys". -/
theorem clear_leaves_second_adjacent_sample :
    clearCategories
        [("categorized_sentences_T", "cats"), ("sample_T_1", "a"), ("sample_T_2", "b")]
        "T"
      = [("sample_T_2", "b")] ∧
    getItem (clearCategories
        [("categorized_sentences_T", "cats"), ("sample_T_1", "a"), ("sample_T_2", "b")]
        "T") "sample_T_2" = some "b" := by
  constructor
  · decide
  · decide

/-! ## Personalization (`ContentGenerator.personalizeLetter`,
contentGenerator.ts, lines 462–509, over the fallible transport of
`QueryService.generateText`, part_003 lines 45–81) -/

structure StudentInfo where
  studentName : String
  schoolProgram : String
  course : String
  customCourse : Option String
  whenTaught : String
  academicStrength : String
  characterWords : List String
  academicAnecdote : String
  characterAnecdote : String
deriving DecidableEq, Repr

/-- `studentInfo.customCourse || studentInfo.course` (absent or empty
custom course falls back). -/
def courseShown (info : StudentInfo) : String :=
  match info.customCourse with
  | some c => if c = "" then info.course else c
  | none => info.course

/-- The personalization prompt (lines 468–495). -/
def personalizePrompt (draftLetter : String) (info : StudentInfo)
    (teacherName : String) : String :=
  "\nYou are helping a teacher named " ++ teacherName ++
    " write a recommendation letter for a student applying to a college/university program.\n\nI\x27ll provide you with:\n1. A draft recommendation letter created from pieces of previous letters\n2. Information about the specific student\n\nYour task is to personalize the letter to the student by:\n1. Replacing ONLY words (names, pronouns, subjects, etc.) to match the student. You can replace as many words as you want, since we aren\x27t trying to repeat what we have written for prior students.\n2. The only exception to point 1 is when incorporating the student\x27s academic and character anecdotes. Integrate them into the paper while trying to precisely match the writing style of the rest of the letter.\n3. Ensuring the letter flows naturally and is addressed to the correct program/school\n4. DO NOT change sentence structures except when incorporating the anecdotes\n\nSTUDENT INFORMATION:\n- Name: "
    ++ info.studentName ++ "\n- Applying to: " ++ info.schoolProgram ++
    "\n- Course taken: " ++ courseShown info ++ "\n- When taken: " ++ info.whenTaught ++
    "\n- Academic strength: " ++ info.academicStrength ++
    "\n- Character described as: " ++ String.intercalate ", " info.characterWords ++
    "\n- Academic anecdote: " ++ info.academicAnecdote ++
    "\n- Character anecdote: " ++ info.characterAnecdote ++
    "\n\nDRAFT LETTER:\n" ++ draftLetter ++
    "\n\nPlease provide the personalized letter that maintains the teacher\x27s writing style but is tailored to this specific student.\n"

/-- The fixed fallback of line 508. -/
def personalizeFallback : String :=
  "Unable to generate personalized content. Please try again."

/-- Embedding of `ContentGenerator.personalizeLetter`: the stage builds
one prompt, forwards it to the transport (`respond`; an `error` is the
transport throwing, which the stage does not catch) and returns
`response.text || fallback`. -/
def personalizeLetter (respond : String → Except String String)
    (draftLetter : String) (info : StudentInfo) (teacherName : String) :
    Except String String :=
  match respond (personalizePrompt draftLetter info teacherName) with
  | .error e => .error e
  | .ok t => .ok (if t = "" then personalizeFallback else t)

/-- C8: for every draft, student info and owner, personalize returns the
model's raw response text — or the fixed fallback string when the
response text field is empty — and never throws from this stage: an
error outcome can only be the transport's own error, passed through
unchanged. -/
theorem personalize_returns_text_or_fallback
    (respond : String → Except String String) (draftLetter : String)
    (info : StudentInfo) (teacherName : String) :
    (∀ t, respond (personalizePrompt draftLetter info teacherName) = .ok t →
      personalizeLetter respond draftLetter info teacherName
        = .ok (if t = "" then personalizeFallback else t)) ∧
    (∀ e, respond (personalizePrompt draftLetter info teacherName) = .error e →
      personalizeLetter respond draftLetter info teacherName = .error e) := by
  constructor
  · intro t ht
    unfold personalizeLetter
    rw [ht]
  · intro e he
    unfold personalizeLetter
    rw [he]

def infoExample : StudentInfo :=
  ⟨"Jane Doe", "State University", "Mathematics", none, "2024", "strong",
    ["kind", "curious", "driven"], "solved a hard problem", "helped a classmate"⟩

/-- Witness for C8: a non-empty response is returned verbatim; an empty
response becomes the fixed fallback. -/
theorem personalize_returns_text_or_fallback_witness :
    personalizeLetter (fun _ => .ok "Dear Committee") "draft" infoExample "T"
        = .ok "Dear Committee" ∧
    personalizeLetter (fun _ => .ok "") "draft" infoExample "T"
        = .ok personalizeFallback := by
  constructor
  · have h := (personalize_returns_text_or_fallback (fun _ => .ok "Dear Committee")
      "draft" infoExample "T").1 "Dear Committee" rfl
    simpa using h
  · have h := (personalize_returns_text_or_fallback (fun _ => .ok "")
      "draft" infoExample "T").1 "" rfl
    simpa using h

/-- Embedding of `WritingSampleAnalyzer.getCategories` (part_004, lines
263–283): read the stored JSON for the owner's key; `jsonCats`
abstracts the platform `JSON.parse` (`none` = parse threw, caught by
the `try`); with no stored value, or on a parse failure, the empty
five-key record is returned.  The function is total — it never throws. -/
def getCategories (jsonCats : String → Option AnalysisCategories)
    (storage : List (String × String)) (teacherName : String) : AnalysisCategories :=
  match getItem storage (getCategoryStorageKey teacherName) with
  | some s =>
      match jsonCats s with
      | some r => r
      | none => emptyCategories
  | none => emptyCategories

/-- C9: `getCategories` is total with a well-formed default — for an
owner with no stored categories, and for an owner whose stored value
fails to parse as JSON, it returns the `AnalysisCategories` with all
five category arrays empty. -/
theorem getCategories_total_default
    (jsonCats : String → Option AnalysisCategories)
    (storage : List (String × String)) (teacherName : String) :
    (getItem storage (getCategoryStorageKey teacherName) = none →
      getCategories jsonCats storage teacherName = emptyCategories) ∧
    (∀ s, getItem storage (getCategoryStorageKey teacherName) = some s →
      jsonCats s = none →
      getCategories jsonCats storage teacherName = emptyCategories) := by
  constructor
  · intro h
    unfold getCategories
    rw [h]
  · intro s hs hp
    unfold getCategories
    rw [hs]
    simp only []
    rw [hp]

/-- Witness for C9: an empty store, and a store whose value every parse
rejects, both yield the empty record. -/
theorem getCategories_total_default_witness :
    getCategories (fun _ => none) [] "T" = emptyCategories ∧
    getCategories (fun _ => none) [("categorized_sentences_T", "not json")] "T"
      = emptyCategories := by
  constructor
  · exact (getCategories_total_default (fun _ => none) [] "T").1 (by decide)
  · exact (getCategories_total_default (fun _ => none)
      [("categorized_sentences_T", "not json")] "T").2 "not json" (by decide) rfl
